import Mathlib

/-!
# GHS Binder automation system — verification of the deployment pipeline and
# chemical registry

Shallow embedding of the JavaScript sources (`scripts/dashboard.js` and the
chemical-manager script) of the GHS safety-binder site generator.  Pure parts
of the code (id derivation, list mutation, template data, reconciliation) are
translated into executable Lean functions; the effectful parts (GitHub API
calls, HTTP HEAD requests, the local filesystem) are modelled by passing the
environment explicitly: the local `pdfs/` directory is a partial map from
filename to byte list, HTTP responses are an oracle from URL to response
record, and API probe/creation outcomes are `Except` values keyed by the HTTP
status code the JavaScript inspects.
-/

set_option maxHeartbeats 1000000

namespace GHS

/-- One document slot of a chemical (`literature` or `sds`): a JSON object with
a `filename` and, when written by `addChemical`, a `url` and `title`.  `url`
and `title` are `Option` because the raw input objects merged by
`updateChemical`'s `Object.assign` need not carry them. -/
structure DocRef where
  filename : String
  url : Option String
  title : Option String
  deriving DecidableEq

/-- A `ChemicalRecord` as stored in a customer config's `chemicals` array.
`literature`/`sds` are `Option` because the code guards them
(`chemical.literature?.filename`, `if (chemical.literature && ...)`).
`deactivated_date` is absent until `removeChemical` stamps it. -/
structure Chemical where
  id : String
  name : String
  description : String
  hazards : String
  literature : Option DocRef
  sds : Option DocRef
  supplier : String
  last_updated : String
  active : Bool
  deactivated_date : Option String
  deriving DecidableEq

/-- The `site_settings` block (the fields the verified code touches;
`complete_binder` is an optional document reference whose `url` the template
reads through optional chaining). -/
structure SiteSettings where
  last_updated : String
  complete_binder : Option DocRef
  deriving DecidableEq

/-- The customer contact block. -/
structure Contact where
  phone : String
  email : String
  emergency : String
  address : String
  deriving DecidableEq

/-- The customer branding block. -/
structure Branding where
  logo_url : String
  primary_color : String
  secondary_color : String
  deriving DecidableEq

/-- The `customer_info` block (the fields the verified code touches). -/
structure CustomerInfo where
  name : String
  slug : String
  repoName : String
  repoUrl : String
  contact : Contact
  branding : Branding
  deriving DecidableEq

/-- A `CustomerConfig` JSON document. -/
structure CustomerConfig where
  customer_info : CustomerInfo
  chemicals : List Chemical
  site_settings : SiteSettings
  deriving DecidableEq

/-- JavaScript `chemical.literature?.filename` under JS truthiness: the slot
must be present and the filename a non-empty string (the code tests the
filename with `if (!file.data?.filename)`, `.filter(Boolean)` and
`if (chemical.literature && chemical.literature.filename)`, and the empty
string is falsy). -/
def docFilename : Option DocRef → Option String
  | none => none
  | some d => if d.filename = "" then none else some d.filename

/-! ## `generateChemicalId` (ChemicalManager)

```js
generateChemicalId(name) {
    return name
        .toLowerCase()
        .replace(/[^a-z0-9\s]/g, '')
        .replace(/\s+/g, '-')
        .substring(0, 50);
}
```
-/

/-- The character class of the JavaScript regex `\s`. -/
def jsWhitespace (c : Char) : Bool :=
  c == ' ' || c == '\t' || c == '\n' || c == Char.ofNat 0x0B || c == Char.ofNat 0x0C ||
  c == '\r' || c == Char.ofNat 0xA0 || c == Char.ofNat 0x1680 ||
  (Char.ofNat 0x2000 ≤ c && c ≤ Char.ofNat 0x200A) ||
  c == Char.ofNat 0x2028 || c == Char.ofNat 0x2029 || c == Char.ofNat 0x202F ||
  c == Char.ofNat 0x205F || c == Char.ofNat 0x3000 || c == Char.ofNat 0xFEFF

/-- Membership in `[a-z0-9]`, the characters the regex `[^a-z0-9\s]` keeps
besides whitespace. -/
def isLowerAlnumChar (c : Char) : Bool :=
  ('a' ≤ c && c ≤ 'z') || ('0' ≤ c && c ≤ '9')

/-- `.replace(/\s+/g, '-')`: every maximal run of whitespace becomes a single
hyphen.  The boolean records whether the previous character was whitespace
(i.e. whether we are inside a run already replaced). -/
def collapseWs : Bool → List Char → List Char
  | _, [] => []
  | prev, c :: cs =>
    if jsWhitespace c then
      (if prev then [] else ['-']) ++ collapseWs true cs
    else
      c :: collapseWs false cs

/-- `ChemicalManager.generateChemicalId`: lowercase, delete every character
outside `[a-z0-9\s]`, replace each whitespace run by `-`, truncate to 50. -/
def generateChemicalId (name : String) : String :=
  let lowered := name.toList.map Char.toLower
  let stripped := lowered.filter (fun c => isLowerAlnumChar c || jsWhitespace c)
  let hyphened := collapseWs false stripped
  String.mk (hyphened.take 50)

/-- Every character `collapseWs` emits is either a character of its input that
was not whitespace, or the hyphen it substitutes for a whitespace run. -/
theorem collapseWs_mem (b : Bool) (l : List Char)
    (hl : ∀ c ∈ l, isLowerAlnumChar c = true ∨ jsWhitespace c = true) :
    ∀ c ∈ collapseWs b l, isLowerAlnumChar c = true ∨ c = '-' := by
  induction l generalizing b with
  | nil => intro c hc; simp [collapseWs] at hc
  | cons x xs ih =>
    intro c hc
    have hxs : ∀ c ∈ xs, isLowerAlnumChar c = true ∨ jsWhitespace c = true := by
      intro c hcx; exact hl c (List.mem_cons_of_mem _ hcx)
    by_cases hx : jsWhitespace x = true
    · simp only [collapseWs, hx, if_true] at hc
      rcases List.mem_append.mp hc with hc1 | hc2
      · cases b with
        | true => simp at hc1
        | false =>
          right
          simpa using hc1
      · exact ih true hxs c hc2
    · simp only [collapseWs, hx, if_false, Bool.false_eq_true] at hc
      rcases List.mem_cons.mp hc with hc1 | hc2
      · subst hc1
        rcases hl c (List.mem_cons_self _ _) with h | h
        · exact Or.inl h
        · exact absurd h hx
      · exact ih false hxs c hc2

/-- C6: the derived chemical id is a deterministic function of the name (it is
a pure function, so repeated calls agree definitionally), every character of it
is a lowercase letter, a digit, or a hyphen, and its length is at most 50. -/
theorem generateChemicalId_deterministic_charset_truncated (name : String) :
    generateChemicalId name = generateChemicalId name ∧
    (∀ c ∈ (generateChemicalId name).toList, isLowerAlnumChar c = true ∨ c = '-') ∧
    (generateChemicalId name).length ≤ 50 := by
  refine ⟨rfl, ?_, ?_⟩
  · intro c hc
    have hfilter : ∀ x ∈ (name.toList.map Char.toLower).filter
        (fun c => isLowerAlnumChar c || jsWhitespace c),
        isLowerAlnumChar x = true ∨ jsWhitespace x = true := by
      intro x hx
      have := List.of_mem_filter hx
      rcases Bool.or_eq_true_iff.mp this with h | h
      · exact Or.inl h
      · exact Or.inr h
    have hmem : c ∈ collapseWs false ((name.toList.map Char.toLower).filter
        (fun c => isLowerAlnumChar c || jsWhitespace c)) := by
      have : c ∈ ((collapseWs false ((name.toList.map Char.toLower).filter
          (fun c => isLowerAlnumChar c || jsWhitespace c))).take 50) := by
        simpa [generateChemicalId, String.toList] using hc
      exact List.mem_of_mem_take this
    exact collapseWs_mem false _ hfilter c hmem
  · simp only [generateChemicalId, String.length]
    simp [List.length_take]

/-- Witness for C6 at the concrete name `"Heavy Duty Cleaner 3000!"`: the
charset clause applied at the character `h` of the derived id. -/
theorem generateChemicalId_deterministic_charset_truncated_witness :
    isLowerAlnumChar 'h' = true ∨ 'h' = '-' :=
  (generateChemicalId_deterministic_charset_truncated "Heavy Duty Cleaner 3000!").2.1
    'h' (by decide)

/-! ## ChemicalManager: `addChemical`, `updateChemical`, `removeChemical`,
`listChemicals`

The pure heart of these operations is the mutation of `cfg.chemicals` (and the
`site_settings.last_updated` stamp) between `loadCustomerConfig` and
`saveCustomerConfig`; the surrounding disk reads/writes and the redeployment
call are the explicit state passing of `cfg`. -/

/-- The raw `chemicalData` object handed to `addChemical`/`updateChemical`,
typed with exactly the keys the code reads; an `Option` field models a key
that may be absent from the JS object. -/
structure ChemicalInput where
  name : String
  description : Option String
  hazards : Option String
  literature : Option DocRef
  sds : Option DocRef
  supplier : Option String
  deriving DecidableEq

/-- JavaScript `v || dflt` for an optional string field: absent keys and the
empty string are falsy. -/
def jsOr (v : Option String) (dflt : String) : String :=
  match v with
  | none => dflt
  | some s => if s = "" then dflt else s

/-- `ChemicalManager.validateChemicalData`: `name`, `literature`, `sds` are
required (JS truthiness), both filenames must be present and end in `.pdf`.
The final catch-all arm is unreachable: it is taken only when `literature` or
`sds` is absent, which the `missing` check has already rejected. -/
def validateChemicalData (d : ChemicalInput) : Except String Unit :=
  let missing := (if d.name = "" then ["name"] else []) ++
    (if d.literature.isNone then ["literature"] else []) ++
    (if d.sds.isNone then ["sds"] else [])
  if missing ≠ [] then
    .error ("Missing required fields: " ++ String.intercalate ", " missing)
  else
    match d.literature, d.sds with
    | some lit, some sdsr =>
      if lit.filename = "" ∨ sdsr.filename = "" then
        .error "Literature and SDS filenames are required"
      else if ¬ lit.filename.endsWith ".pdf" then
        .error "Literature file must be a PDF"
      else if ¬ sdsr.filename.endsWith ".pdf" then
        .error "SDS file must be a PDF"
      else .ok ()
    | _, _ => .error ("Missing required fields: " ++ String.intercalate ", " missing)

/-- `Object.assign(chemical, updates)` for the typed patch: every key present
on the input overwrites the record's field; `name`, and the `literature`/`sds`
objects when present, are replaced wholesale (the raw input doc objects carry
no `url`).  `id`, `active`, `deactivated_date` are not keys of the input and
are untouched. -/
def assignInput (c : Chemical) (d : ChemicalInput) : Chemical :=
  { c with
    name := d.name
    description := match d.description with | none => c.description | some s => s
    hazards := match d.hazards with | none => c.hazards | some s => s
    literature := match d.literature with | none => c.literature | some l => some l
    sds := match d.sds with | none => c.sds | some s => some s
    supplier := match d.supplier with | none => c.supplier | some s => s }

/-- `findIndex` followed by in-place mutation of the found element:
`none` when no element satisfies `p` (findIndex returned -1). -/
def modifyFirst {α : Type} (p : α → Bool) (f : α → α) : List α → Option (List α)
  | [] => none
  | c :: cs =>
    if p c then some (f c :: cs)
    else (modifyFirst p f cs).map (c :: ·)

/-- `ChemicalManager.updateChemical` (config mutation): find the record by id
(error if absent), `Object.assign` the updates, restamp `last_updated`, and
stamp `site_settings.last_updated`. -/
def updateChemical (cfg : CustomerConfig) (chemicalId : String) (d : ChemicalInput)
    (today : String) : Except String CustomerConfig :=
  match modifyFirst (fun c => c.id == chemicalId)
      (fun c => { assignInput c d with last_updated := today }) cfg.chemicals with
  | none => .error ("Chemical \"" ++ chemicalId ++ "\" not found")
  | some l => .ok { cfg with
      chemicals := l
      site_settings := { cfg.site_settings with last_updated := today } }

/-- `ChemicalManager.removeChemical` (config mutation): find the record by id
(error if absent), mark it inactive instead of deleting, stamp
`deactivated_date` and `site_settings.last_updated`. -/
def removeChemical (cfg : CustomerConfig) (chemicalId : String) (today : String) :
    Except String CustomerConfig :=
  match modifyFirst (fun c => c.id == chemicalId)
      (fun c => { c with active := false, deactivated_date := some today })
      cfg.chemicals with
  | none => .error ("Chemical \"" ++ chemicalId ++ "\" not found")
  | some l => .ok { cfg with
      chemicals := l
      site_settings := { cfg.site_settings with last_updated := today } }

/-- `ChemicalManager.addChemical` (config mutation): validate, derive the id;
if a record with that id exists (`findIndex !== -1`, active or not) delegate
to `updateChemical`, else append the freshly-built record and stamp
`site_settings.last_updated`. -/
def addChemical (cfg : CustomerConfig) (d : ChemicalInput) (today : String) :
    Except String CustomerConfig :=
  match validateChemicalData d with
  | .error e => .error e
  | .ok () =>
    let cid := generateChemicalId d.name
    if cfg.chemicals.any (fun c => c.id == cid) then
      updateChemical cfg cid d today
    else
      match d.literature, d.sds with
      | some lit, some sdsr =>
        let newChem : Chemical :=
          { id := cid
            name := d.name
            description := jsOr d.description "Professional chemical product"
            hazards := jsOr d.hazards
              "See Safety Data Sheet for complete hazard information"
            literature := some
              { filename := lit.filename
                url := some ("pdfs/" ++ lit.filename)
                title := some (jsOr lit.title (d.name ++ " Product Literature")) }
            sds := some
              { filename := sdsr.filename
                url := some ("pdfs/" ++ sdsr.filename)
                title := some (jsOr sdsr.title (d.name ++ " Safety Data Sheet")) }
            supplier := jsOr d.supplier "Unknown Supplier"
            last_updated := today
            active := true
            deactivated_date := none }
        .ok { cfg with
            chemicals := cfg.chemicals ++ [newChem]
            site_settings := { cfg.site_settings with last_updated := today } }
      | _, _ => .error "Missing required fields: literature, sds"

/-- The result object of `ChemicalManager.listChemicals`: records filtered by
`active` unless `includeInactive`, plus total/active/inactive counts. -/
structure ChemicalListing where
  customer : String
  total : Nat
  activeCount : Nat
  inactiveCount : Nat
  chemicals : List Chemical
  deriving DecidableEq

/-- `ChemicalManager.listChemicals`. -/
def listChemicals (cfg : CustomerConfig) (includeInactive : Bool) : ChemicalListing :=
  let chems := if includeInactive then cfg.chemicals
    else cfg.chemicals.filter (fun c => c.active)
  { customer := cfg.customer_info.name
    total := chems.length
    activeCount := (cfg.chemicals.filter (fun c => c.active)).length
    inactiveCount := (cfg.chemicals.filter (fun c => !c.active)).length
    chemicals := chems }

/-- The chemicals list of a mutation's result; on `error` nothing was saved,
so the stored list is the unchanged input list. -/
def okChemicals (r : Except String CustomerConfig) (unchanged : List Chemical) :
    List Chemical :=
  match r with
  | .ok c => c.chemicals
  | .error _ => unchanged

/-- `modifyFirst` succeeds exactly when some element satisfies the predicate. -/
theorem modifyFirst_some_of_any {α : Type} (p : α → Bool) (f : α → α) (l : List α)
    (h : l.any p = true) : ∃ l', modifyFirst p f l = some l' := by
  induction l with
  | nil => simp at h
  | cons c cs ih =>
    by_cases hc : p c = true
    · exact ⟨f c :: cs, by simp [modifyFirst, hc]⟩
    · have hcs : cs.any p = true := by
        rcases List.any_eq_true.mp h with ⟨x, hx, hpx⟩
        rcases List.mem_cons.mp hx with rfl | hx'
        · exact absurd hpx hc
        · exact List.any_eq_true.mpr ⟨x, hx', hpx⟩
      rcases ih hcs with ⟨l', hl'⟩
      exact ⟨c :: l', by simp [modifyFirst, hc, hl']⟩

/-- Decomposition of a successful `modifyFirst`: the list splits at the first
element satisfying `p`, which alone is rewritten by `f`. -/
theorem modifyFirst_decomp {α : Type} {p : α → Bool} {f : α → α}
    {l l' : List α} (h : modifyFirst p f l = some l') :
    ∃ l1 a l2, l = l1 ++ a :: l2 ∧ l' = l1 ++ f a :: l2 ∧ p a = true ∧
      ∀ x ∈ l1, p x = false := by
  induction l generalizing l' with
  | nil => simp [modifyFirst] at h
  | cons c cs ih =>
    by_cases hc : p c = true
    · rw [modifyFirst, if_pos hc] at h
      refine ⟨[], c, cs, by simp, ?_, hc, by simp⟩
      simpa using (Option.some.inj h).symm
    · rw [modifyFirst, if_neg hc] at h
      rcases Option.map_eq_some'.mp h with ⟨cs', hcs', rfl⟩
      rcases ih hcs' with ⟨l1, a, l2, hl, hl', hpa, hl1⟩
      refine ⟨c :: l1, a, l2, by simp [hl], by simp [hl'], hpa, ?_⟩
      intro x hx
      rcases List.mem_cons.mp hx with rfl | hx'
      · exact Bool.eq_false_iff.mpr hc
      · exact hl1 x hx'

/-- `modifyFirst` with a rewriting function that preserves `id` preserves the
list of ids. -/
theorem modifyFirst_map_id {p : Chemical → Bool} {f : Chemical → Chemical}
    (hf : ∀ a, (f a).id = a.id) {l l' : List Chemical}
    (h : modifyFirst p f l = some l') : l'.map Chemical.id = l.map Chemical.id := by
  obtain ⟨l1, a, l2, rfl, rfl, _, _⟩ := modifyFirst_decomp h
  simp [hf]

/-- C5: `removeChemical` never deletes the record: with pairwise-distinct ids
and the id present in the list, it succeeds, the list keeps its length, the
record with that id is still there with `active = false` and a stamped
`deactivated_date`, and it is excluded from `listChemicals` with
`includeInactive = false`. -/
theorem removeChemical_soft_delete (cfg : CustomerConfig) (cid today : String)
    (hnodup : (cfg.chemicals.map Chemical.id).Nodup)
    (hmem : cfg.chemicals.any (fun c => c.id == cid) = true) :
    ∃ cfg', removeChemical cfg cid today = .ok cfg' ∧
      cfg'.chemicals.length = cfg.chemicals.length ∧
      (∃ c ∈ cfg'.chemicals, c.id = cid ∧ c.active = false ∧
        c.deactivated_date = some today) ∧
      ∀ c ∈ (listChemicals cfg' false).chemicals, c.id ≠ cid := by
  obtain ⟨l', hl'⟩ := modifyFirst_some_of_any (fun c => c.id == cid)
    (fun c => { c with active := false, deactivated_date := some today })
    cfg.chemicals hmem
  obtain ⟨l1, a, l2, hsplit, hsplit', hpa, hl1⟩ := modifyFirst_decomp hl'
  have haid : a.id = cid := by simpa using hpa
  have hres : removeChemical cfg cid today = .ok { cfg with
      chemicals := l'
      site_settings := { cfg.site_settings with last_updated := today } } := by
    simp [removeChemical, hl']
  refine ⟨_, hres, ?_, ?_, ?_⟩
  · simp [hsplit, hsplit']
  · refine ⟨{ a with active := false, deactivated_date := some today }, ?_, ?_, rfl, rfl⟩
    · simp [hsplit']
    · simpa using haid
  · intro c hc hcid
    have hc' : c ∈ l' ∧ c.active = true := by
      have hcf : c ∈ l'.filter (fun c => c.active) := by
        simpa [listChemicals] using hc
      have := List.mem_filter.mp hcf
      exact ⟨this.1, this.2⟩
    have hnd : ((l1 ++ a :: l2).map Chemical.id).Nodup := by
      rw [← hsplit]; exact hnodup
    rw [hsplit'] at hc'
    rcases List.mem_append.mp hc'.1 with h1 | h2
    · have := hl1 c h1
      simp [hcid] at this
    · rcases List.mem_cons.mp h2 with rfl | h3
      · simpa using hc'.2
      · have hnd' : (l1.map Chemical.id ++ a.id :: l2.map Chemical.id).Nodup := by
          simpa using hnd
        have hnd2 : (a.id :: l2.map Chemical.id).Nodup :=
          (List.nodup_append.mp hnd').2.1
        have h5 : a.id ∉ l2.map Chemical.id := (List.nodup_cons.mp hnd2).1
        exact h5 (by simpa [hcid, haid] using List.mem_map_of_mem Chemical.id h3)

/-- C7: starting from pairwise-distinct ids, `addChemical` keeps the stored
ids pairwise distinct, and when a record with the derived id already exists it
does not append (the update-in-place path keeps the list length). -/
theorem addChemical_preserves_id_uniqueness (cfg : CustomerConfig)
    (d : ChemicalInput) (today : String)
    (hnodup : (cfg.chemicals.map Chemical.id).Nodup) :
    ((okChemicals (addChemical cfg d today) cfg.chemicals).map Chemical.id).Nodup ∧
    (cfg.chemicals.any (fun c => c.id == generateChemicalId d.name) = true →
      (okChemicals (addChemical cfg d today) cfg.chemicals).length =
        cfg.chemicals.length) := by
  cases hv : validateChemicalData d with
  | error e => constructor <;> simp [addChemical, hv, okChemicals, hnodup]
  | ok u =>
    cases u
    by_cases hany : cfg.chemicals.any (fun c => c.id == generateChemicalId d.name) = true
    · cases hmf : modifyFirst (fun c => c.id == generateChemicalId d.name)
          (fun c => { assignInput c d with last_updated := today }) cfg.chemicals with
      | none =>
        have hres : addChemical cfg d today =
            .error ("Chemical \"" ++ generateChemicalId d.name ++ "\" not found") := by
          simp [addChemical, hv, hany, updateChemical, hmf]
        constructor <;> simp [hres, okChemicals, hnodup]
      | some l' =>
        have hid : l'.map Chemical.id = cfg.chemicals.map Chemical.id :=
          @modifyFirst_map_id (fun c => c.id == generateChemicalId d.name)
            (fun c => { assignInput c d with last_updated := today })
            (fun a => rfl) cfg.chemicals l' hmf
        have hres : okChemicals (addChemical cfg d today) cfg.chemicals = l' := by
          simp [addChemical, hv, hany, updateChemical, hmf, okChemicals]
        rw [hres]
        refine ⟨by rw [hid]; exact hnodup, fun _ => ?_⟩
        have := congrArg List.length hid
        simpa using this
    · cases hdl : d.literature with
      | none =>
        have hres : okChemicals (addChemical cfg d today) cfg.chemicals =
            cfg.chemicals := by
          simp [addChemical, hv, hany, hdl, okChemicals]
        rw [hres]
        exact ⟨hnodup, fun h => absurd h hany⟩
      | some lit =>
        cases hds : d.sds with
        | none =>
          have hres : okChemicals (addChemical cfg d today) cfg.chemicals =
              cfg.chemicals := by
            simp [addChemical, hv, hany, hdl, hds, okChemicals]
          rw [hres]
          exact ⟨hnodup, fun h => absurd h hany⟩
        | some sdsr =>
          have hnotmem : generateChemicalId d.name ∉ cfg.chemicals.map Chemical.id := by
            intro habs
            rcases List.mem_map.mp habs with ⟨c, hc, hcid⟩
            exact hany (List.any_eq_true.mpr ⟨c, hc, by simp [hcid]⟩)
          have hres : okChemicals (addChemical cfg d today) cfg.chemicals =
              cfg.chemicals ++
                [{ id := generateChemicalId d.name
                   name := d.name
                   description := jsOr d.description "Professional chemical product"
                   hazards := jsOr d.hazards
                     "See Safety Data Sheet for complete hazard information"
                   literature := some
                     { filename := lit.filename
                       url := some ("pdfs/" ++ lit.filename)
                       title := some (jsOr lit.title (d.name ++ " Product Literature")) }
                   sds := some
                     { filename := sdsr.filename
                       url := some ("pdfs/" ++ sdsr.filename)
                       title := some (jsOr sdsr.title (d.name ++ " Safety Data Sheet")) }
                   supplier := jsOr d.supplier "Unknown Supplier"
                   last_updated := today
                   active := true
                   deactivated_date := none }] := by
            simp [addChemical, hv, hany, hdl, hds, okChemicals]
          rw [hres]
          constructor
          · rw [List.map_append, List.nodup_append]
            refine ⟨hnodup, by simp, ?_⟩
            intro x hx hx2
            simp only [List.map_cons, List.map_nil, List.mem_singleton] at hx2
            rw [hx2] at hx
            exact hnotmem hx
          · intro h
            exact absurd h hany

/-- Sample data used by the concrete-input witnesses. -/
def sampleChemical : Chemical :=
  { id := "acetone"
    name := "Acetone"
    description := "Solvent"
    hazards := "Flammable"
    literature := some
      { filename := "acetone_lit.pdf"
        url := some "pdfs/acetone_lit.pdf"
        title := some "Acetone Product Literature" }
    sds := some
      { filename := "acetone_sds.pdf"
        url := some "pdfs/acetone_sds.pdf"
        title := some "Acetone Safety Data Sheet" }
    supplier := "Rasco"
    last_updated := "2025-01-01"
    active := true
    deactivated_date := none }

/-- A second active chemical with a distinct id. -/
def sampleChemical2 : Chemical :=
  { sampleChemical with
    id := "bleach"
    name := "Bleach"
    literature := some
      { filename := "bleach_lit.pdf"
        url := some "pdfs/bleach_lit.pdf"
        title := some "Bleach Product Literature" }
    sds := some
      { filename := "bleach_sds.pdf"
        url := some "pdfs/bleach_sds.pdf"
        title := some "Bleach Safety Data Sheet" } }

/-- A sample customer config holding the two sample chemicals. -/
def sampleConfig : CustomerConfig :=
  { customer_info :=
      { name := "SQZR Cleaning Solutions"
        slug := "sqzr"
        repoName := "sqzr-ghs-binder"
        repoUrl := "https://rascoused.github.io/sqzr-ghs-binder"
        contact :=
          { phone := "555-0100"
            email := "safety@sqzr.example"
            emergency := "555-0911"
            address := "1 Main St" }
        branding :=
          { logo_url := "assets/logo.png"
            primary_color := "#004080"
            secondary_color := "#ffffff" } }
    chemicals := [sampleChemical, sampleChemical2]
    site_settings := { last_updated := "2025-01-01", complete_binder := none } }

/-- Witness for C5: removing `"acetone"` from the sample config. -/
theorem removeChemical_soft_delete_witness :
    (sampleConfig.chemicals.map Chemical.id).Nodup ∧
    sampleConfig.chemicals.any (fun c => c.id == "acetone") = true ∧
    ∃ cfg', removeChemical sampleConfig "acetone" "2025-06-01" = .ok cfg' ∧
      cfg'.chemicals.length = sampleConfig.chemicals.length ∧
      (∃ c ∈ cfg'.chemicals, c.id = "acetone" ∧ c.active = false ∧
        c.deactivated_date = some "2025-06-01") ∧
      ∀ c ∈ (listChemicals cfg' false).chemicals, c.id ≠ "acetone" :=
  ⟨by decide, by decide,
    removeChemical_soft_delete sampleConfig "acetone" "2025-06-01"
      (by decide) (by decide)⟩

/-- The `chemicalData` input whose derived id collides with `sampleChemical`. -/
def sampleInput : ChemicalInput :=
  { name := "Acetone"
    description := some "Updated solvent"
    hazards := none
    literature := some { filename := "acetone_lit.pdf", url := none, title := none }
    sds := some { filename := "acetone_sds.pdf", url := none, title := none }
    supplier := none }

/-- Witness for C7: adding a chemical whose derived id `"acetone"` already
exists in the sample config keeps the list length (update in place). -/
theorem addChemical_preserves_id_uniqueness_witness :
    (sampleConfig.chemicals.map Chemical.id).Nodup ∧
    (okChemicals (addChemical sampleConfig sampleInput "2025-06-01")
      sampleConfig.chemicals).length = sampleConfig.chemicals.length :=
  ⟨by decide,
    (addChemical_preserves_id_uniqueness sampleConfig sampleInput "2025-06-01"
      (by decide)).2 (by decide)⟩

/-! ## `GHSBinderDeployer.generateHTML` (template data)

The renderer reads the shared template and calls `mustache.render(template,
templateData)`.  The template file and the third-party rendering are external;
the embedding captures `templateData`, the structured value substituted into
the template (the two JSON blobs are modelled as the values serialised, since
`JSON.stringify` is injective on them). -/

/-- The `CUSTOMER_INFO_JSON` blob: name, contact and branding. -/
structure CustomerInfoBlob where
  name : String
  contact : Contact
  branding : Branding
  deriving DecidableEq

/-- The `templateData` object built by `generateHTML`. -/
structure TemplateData where
  customerName : String
  customerLogo : String
  customerContact : String
  customerEmergency : String
  lastUpdated : String
  generationDate : String
  totalProducts : Nat
  totalDocuments : Nat
  completeBinderUrl : Option String
  productsJson : List Chemical
  customerInfoJson : CustomerInfoBlob
  deriving DecidableEq

/-- `GHSBinderDeployer.generateHTML`: filter the chemicals to `active` and
build the template data (counts, embedded JSON blobs) from the filtered list.
`genDate` stands for `new Date().toLocaleDateString()`. -/
def generateHTMLData (cfg : CustomerConfig) (genDate : String) : TemplateData :=
  let customerInfo := cfg.customer_info
  let chemicals := cfg.chemicals.filter (fun c => c.active)
  { customerName := customerInfo.name
    customerLogo := customerInfo.branding.logo_url
    customerContact := customerInfo.contact.phone
    customerEmergency := customerInfo.contact.emergency
    lastUpdated := cfg.site_settings.last_updated
    generationDate := genDate
    totalProducts := chemicals.length
    totalDocuments := chemicals.length * 2
    completeBinderUrl := cfg.site_settings.complete_binder.bind (fun b => b.url)
    productsJson := chemicals
    customerInfoJson :=
      { name := customerInfo.name
        contact := customerInfo.contact
        branding := customerInfo.branding } }

/-- C8: the template data counts and embeds only active chemicals: the
total-products and total-documents counts come from the active sublist, the
embedded products blob is exactly the active sublist, and no inactive chemical
appears in it. -/
theorem generateHTML_filters_active (cfg : CustomerConfig) (genDate : String) :
    (generateHTMLData cfg genDate).totalProducts =
      (cfg.chemicals.filter (fun c => c.active)).length ∧
    (generateHTMLData cfg genDate).totalDocuments =
      (cfg.chemicals.filter (fun c => c.active)).length * 2 ∧
    (generateHTMLData cfg genDate).productsJson =
      cfg.chemicals.filter (fun c => c.active) ∧
    (∀ c ∈ (generateHTMLData cfg genDate).productsJson, c.active = true) ∧
    (∀ c ∈ cfg.chemicals, c.active = false →
      c ∉ (generateHTMLData cfg genDate).productsJson) := by
  refine ⟨rfl, rfl, rfl, ?_, ?_⟩
  · intro c hc
    exact (List.mem_filter.mp hc).2
  · intro c _ hfalse habs
    have := (List.mem_filter.mp habs).2
    rw [hfalse] at this
    exact Bool.false_ne_true this

/-- Witness for C8: in the sample config both chemicals are active, and the
membership clause applied at `sampleChemical` yields its activity. -/
theorem generateHTML_filters_active_witness :
    sampleChemical.active = true :=
  (generateHTML_filters_active sampleConfig "7/28/2025").2.2.2.1
    sampleChemical (by decide)

/-! ## `deployCustomerSite` result object vs `generateReadme` -/

/-- The `deployment_info` block of the object `deployCustomerSite` returns:
`total_chemicals` is the length of the config's full `chemicals` array. -/
structure DeploymentInfo where
  deployed_at : String
  version : String
  total_chemicals : Nat
  deriving DecidableEq

/-- The `deployment_info` built at the end of `deployCustomerSite`. -/
def deploymentInfoOf (cfg : CustomerConfig) (deployedAt : String) : DeploymentInfo :=
  { deployed_at := deployedAt
    version := "1.0.0"
    total_chemicals := cfg.chemicals.length }

/-- The count `generateReadme` computes:
`customerConfig.chemicals.filter(c => c.active).length`. -/
def readmeTotalChemicals (cfg : CustomerConfig) : Nat :=
  (cfg.chemicals.filter (fun c => c.active)).length

/-- `GHSBinderDeployer.generateReadme`: the README template, with
`readmeTotalChemicals` substituted for the product and document counts.
`genDate` stands for `new Date().toLocaleDateString()`. -/
def generateReadme (cfg : CustomerConfig) (genDate : String) : String :=
  let customerName := cfg.customer_info.name
  let totalChemicals := readmeTotalChemicals cfg
  "# " ++ customerName ++ " - GHS Safety Binder\n\n" ++
  "Professional chemical safety documentation portal providing 24/7 access to GHS-compliant Safety Data Sheets and product literature.\n\n" ++
  "## 🧪 Chemical Safety Information\n\n" ++
  "- **Total Products**: " ++ toString totalChemicals ++ "\n" ++
  "- **Total Documents**: " ++ toString (totalChemicals * 2) ++
    " (Literature + SDS per product)\n" ++
  "- **Compliance**: OSHA Hazard Communication Standard (29 CFR 1910.1200)\n" ++
  "- **Access**: 24/7 emergency access without barriers\n\n" ++
  "## 🚨 Emergency Access\n\n" ++
  "This safety information is available 24/7 without restrictions for emergency response and compliance purposes. No login or password required.\n\n" ++
  "## 📱 Mobile Access\n\n" ++
  "All documents are optimized for mobile viewing and can be accessed via QR codes posted at chemical storage locations.\n\n" ++
  "## 🛡️ Customer Responsibility\n\n" ++
  "**" ++ customerName ++ "** is solely responsible for ensuring the accuracy, completeness, and\ncurrency of all chemical safety information displayed on this site.\n\n" ++
  "## 🏢 System Provider\n\n" ++
  "Professional GHS Binder System provided by **RascoWeb, Inc.**\n\n" ++
  "*Generated on " ++ genDate ++ "*\n"

/-- The length of an active-filtered list drops strictly below the original
length as soon as one element is inactive. -/
theorem filter_active_length_lt {l : List Chemical}
    (h : ∃ c ∈ l, c.active = false) :
    (l.filter (fun c => c.active)).length < l.length := by
  induction l with
  | nil => simp at h
  | cons x xs ih =>
    rcases h with ⟨c, hc, hca⟩
    rcases List.mem_cons.mp hc with rfl | hmem
    · rw [List.filter_cons, hca]
      simp only [Bool.false_eq_true, if_false, List.length_cons]
      exact Nat.lt_succ_of_le (List.length_filter_le _ _)
    · by_cases hx : x.active = true
      · rw [List.filter_cons, hx]
        simp only [if_true, List.length_cons]
        exact Nat.succ_lt_succ (ih ⟨c, hmem, hca⟩)
      · rw [List.filter_cons]
        rw [Bool.not_eq_true] at hx
        rw [hx]
        simp only [Bool.false_eq_true, if_false, List.length_cons]
        exact Nat.lt_succ_of_lt (ih ⟨c, hmem, hca⟩)

/-- C10: the result object's `deployment_info.total_chemicals` counts the full
chemicals list while the README's product count uses the active sublist, and
any config with an inactive chemical makes the two counts differ. -/
theorem deployment_info_vs_readme_counts (cfg : CustomerConfig)
    (deployedAt : String) :
    (deploymentInfoOf cfg deployedAt).total_chemicals = cfg.chemicals.length ∧
    readmeTotalChemicals cfg = (cfg.chemicals.filter (fun c => c.active)).length ∧
    ((∃ c ∈ cfg.chemicals, c.active = false) →
      readmeTotalChemicals cfg <
        (deploymentInfoOf cfg deployedAt).total_chemicals) := by
  refine ⟨rfl, rfl, ?_⟩
  intro h
  exact filter_active_length_lt h

/-- The sample chemical, soft-deleted. -/
def inactiveChemical : Chemical :=
  { sampleChemical with active := false, deactivated_date := some "2025-05-01" }

/-- A config holding one inactive chemical only. -/
def inactiveOnlyConfig : CustomerConfig :=
  { sampleConfig with chemicals := [inactiveChemical] }

/-- Witness for C10: on a config with one inactive chemical the README count
(0) is strictly below the deployment-info count (1). -/
theorem deployment_info_vs_readme_counts_witness :
    (∃ c ∈ inactiveOnlyConfig.chemicals, c.active = false) ∧
    readmeTotalChemicals inactiveOnlyConfig <
      (deploymentInfoOf inactiveOnlyConfig "2025-06-01").total_chemicals :=
  ⟨by decide,
    (deployment_info_vs_readme_counts inactiveOnlyConfig "2025-06-01").2.2 (by decide)⟩

/-! ## Step 7 of `deployCustomerSite`: the PDF upload loop

```js
const chemicals = customerConfig.chemicals || [];
for (const chemical of chemicals) {
    const files = [ ... literature ..., ... sds ... ];
    for (const file of files) {
        if (!file.data?.filename) continue;
        const pdfPath = path.join(__dirname, '..', 'pdfs', filename);
        if (!fs.existsSync(pdfPath)) { console.warn(...); continue; }
        const buffer = fs.readFileSync(pdfPath);
        await this.safeUploadBinary(..., `pdfs/` + filename, buffer, ...);
    }
}
```

The local flat `pdfs/` directory is a map `String → Option (List Nat)`:
`some bytes` when `fs.existsSync` holds, and then `fs.readFileSync` returns
`bytes` (raw, untranscoded). -/

/-- One call to `safeUploadBinary` recorded by the loop. -/
structure UploadAction where
  path : String
  bytes : List Nat
  message : String
  deriving DecidableEq

/-- The warning printed when a referenced PDF is not on disk (the absolute
directory prefix of `pdfPath` is elided). -/
def pdfNotFoundWarning (ty filename : String) : String :=
  ty ++ " PDF not found: " ++ filename

/-- One slot (`Literature` or `SDS`) of one chemical in the loop: skip when
the filename is absent/empty, warn when the file is not on disk, upload the
raw bytes otherwise.  Returns (uploads, warnings) of this slot. -/
def uploadChemSlot (pdfsDir : String → Option (List Nat)) (chemName ty : String)
    (doc : Option DocRef) : List UploadAction × List String :=
  match docFilename doc with
  | none => ([], [])
  | some filename =>
    match pdfsDir filename with
    | none => ([], [pdfNotFoundWarning ty filename])
    | some buffer =>
      ([{ path := "pdfs/" ++ filename
          bytes := buffer
          message := "Upload " ++ ty ++ " PDF for " ++ chemName }], [])

/-- The inner `for (const file of files)` loop: first the Literature slot,
then the SDS slot. -/
def uploadChemicalPDFs (pdfsDir : String → Option (List Nat)) (c : Chemical) :
    List UploadAction × List String :=
  let lit := uploadChemSlot pdfsDir c.name "Literature" c.literature
  let sdsr := uploadChemSlot pdfsDir c.name "SDS" c.sds
  (lit.1 ++ sdsr.1, lit.2 ++ sdsr.2)

/-- The outer `for (const chemical of chemicals)` loop of step 7, over the
unfiltered `customerConfig.chemicals` list. -/
def deployUploadStep (pdfsDir : String → Option (List Nat)) :
    List Chemical → List UploadAction × List String
  | [] => ([], [])
  | c :: cs =>
    let here := uploadChemicalPDFs pdfsDir c
    let rest := deployUploadStep pdfsDir cs
    (here.1 ++ rest.1, here.2 ++ rest.2)

/-- A document slot reference: slot type, owning chemical's name, filename. -/
structure SlotRef where
  ty : String
  chemName : String
  filename : String
  deriving DecidableEq

/-- The slot references of one document slot (empty when the slot has no
truthy filename). -/
def docSlotRefs (ty chemName : String) (doc : Option DocRef) : List SlotRef :=
  match docFilename doc with
  | none => []
  | some f => [{ ty := ty, chemName := chemName, filename := f }]

/-- All slot references of a chemical, in loop order. -/
def chemSlotRefs (c : Chemical) : List SlotRef :=
  docSlotRefs "Literature" c.name c.literature ++ docSlotRefs "SDS" c.name c.sds

/-- All slot references of a chemicals list, in loop order. -/
def slotRefs : List Chemical → List SlotRef
  | [] => []
  | c :: cs => chemSlotRefs c ++ slotRefs cs

/-- The upload a present slot produces. -/
def slotUpload (pdfsDir : String → Option (List Nat)) (s : SlotRef) :
    Option UploadAction :=
  (pdfsDir s.filename).map (fun buffer =>
    { path := "pdfs/" ++ s.filename
      bytes := buffer
      message := "Upload " ++ s.ty ++ " PDF for " ++ s.chemName })

/-- The warning a missing slot produces. -/
def slotWarning (pdfsDir : String → Option (List Nat)) (s : SlotRef) :
    Option String :=
  match pdfsDir s.filename with
  | none => some (pdfNotFoundWarning s.ty s.filename)
  | some _ => none

/-- One slot of the loop equals its filterMap characterisation. -/
theorem uploadChemSlot_eq (pdfsDir : String → Option (List Nat))
    (chemName ty : String) (doc : Option DocRef) :
    uploadChemSlot pdfsDir chemName ty doc =
      ((docSlotRefs ty chemName doc).filterMap (slotUpload pdfsDir),
       (docSlotRefs ty chemName doc).filterMap (slotWarning pdfsDir)) := by
  cases hdoc : docFilename doc with
  | none => simp [uploadChemSlot, docSlotRefs, hdoc]
  | some f =>
    cases hfs : pdfsDir f with
    | none =>
      simp [uploadChemSlot, docSlotRefs, hdoc, List.filterMap,
        slotUpload, slotWarning, hfs]
    | some buffer =>
      simp [uploadChemSlot, docSlotRefs, hdoc, List.filterMap,
        slotUpload, slotWarning, hfs]

/-- C1 (amended): step 7 iterates over every chemical of the config's list —
active and inactive alike — and for each slot with a truthy filename uploads
the raw bytes found on disk via the binary path, or records a non-fatal
warning when the file is absent and continues with the remaining files: the
uploads are exactly the present slots' raw-byte uploads and the warnings
exactly the missing slots' messages, in loop order. -/
theorem deployUploadStep_characterisation (pdfsDir : String → Option (List Nat))
    (chems : List Chemical) :
    (deployUploadStep pdfsDir chems).1 =
      (slotRefs chems).filterMap (slotUpload pdfsDir) ∧
    (deployUploadStep pdfsDir chems).2 =
      (slotRefs chems).filterMap (slotWarning pdfsDir) := by
  induction chems with
  | nil => exact ⟨rfl, rfl⟩
  | cons c cs ih =>
    have h1 := uploadChemSlot_eq pdfsDir c.name "Literature" c.literature
    have h2 := uploadChemSlot_eq pdfsDir c.name "SDS" c.sds
    constructor
    · show (uploadChemicalPDFs pdfsDir c).1 ++ (deployUploadStep pdfsDir cs).1 = _
      rw [slotRefs, List.filterMap_append, ← ih.1]
      show (uploadChemSlot pdfsDir c.name "Literature" c.literature).1 ++
          (uploadChemSlot pdfsDir c.name "SDS" c.sds).1 ++ _ = _
      rw [h1, h2, chemSlotRefs, List.filterMap_append]
    · show (uploadChemicalPDFs pdfsDir c).2 ++ (deployUploadStep pdfsDir cs).2 = _
      rw [slotRefs, List.filterMap_append, ← ih.2]
      show (uploadChemSlot pdfsDir c.name "Literature" c.literature).2 ++
          (uploadChemSlot pdfsDir c.name "SDS" c.sds).2 ++ _ = _
      rw [h1, h2, chemSlotRefs, List.filterMap_append]

/-- A flat `pdfs/` directory holding the sample chemical's two documents
(`%PDF` header bytes). -/
def samplePdfsDir : String → Option (List Nat) :=
  fun f =>
    if f = "acetone_lit.pdf" then some [37, 80, 68, 70]
    else if f = "acetone_sds.pdf" then some [37, 80, 68, 70, 45] else none

/-- Counterexample to C1 as stated: in a config whose only chemical is
inactive, the upload step still uploads both of its documents, so it is false
that only active chemicals' documents are uploaded. -/
theorem deployUploadStep_uploads_inactive :
    inactiveOnlyConfig.chemicals.filter (fun c => c.active) = [] ∧
    ((deployUploadStep samplePdfsDir inactiveOnlyConfig.chemicals).1.map
      (fun a => a.path)) = ["pdfs/acetone_lit.pdf", "pdfs/acetone_sds.pdf"] := by
  constructor
  · decide
  · decide

/-! ## `safeUploadBinary` / `uploadFile`: existence probe + commit

Both upload helpers first call `repos.getContent` for the target path to get
the existing file's `sha`; a thrown error with `status !== 404` is rethrown,
a 404 leaves `sha` undefined; then `createOrUpdateFileContents` commits the
base64-encoded content with the `sha` when present.  The probe is modelled as
`Except Nat String`: the existing file's sha, or the HTTP status of the
failure.  The commit call itself is the returned request record. -/

/-- The standard base64 alphabet. -/
def base64Table : List Char :=
  "ABCDEFGHIJKLMNOPQRSTUVWXYZabcdefghijklmnopqrstuvwxyz0123456789+/".toList

/-- The base64 digit for a 6-bit group. -/
def base64Char (n : Nat) : Char := base64Table.getD n '='

/-- Base64 of a byte list (`Buffer.prototype.toString('base64')`), with
padding. -/
def base64Encode : List Nat → List Char
  | [] => []
  | [b1] =>
    let n := b1 % 256
    [base64Char (n / 4), base64Char (n % 4 * 16), '=', '=']
  | [b1, b2] =>
    let n := b1 % 256 * 256 + b2 % 256
    [base64Char (n / 1024), base64Char (n / 16 % 64), base64Char (n % 16 * 4), '=']
  | b1 :: b2 :: b3 :: rest =>
    let n := b1 % 256 * 65536 + b2 % 256 * 256 + b3 % 256
    base64Char (n / 262144) :: base64Char (n / 4096 % 64) ::
      base64Char (n / 64 % 64) :: base64Char (n % 64) :: base64Encode rest

/-- `fileBuffer.toString('base64')`. -/
def bufferToBase64 (bytes : List Nat) : String := String.mk (base64Encode bytes)

/-- `Buffer.from(content).toString('base64')`: UTF-8 bytes, then base64. -/
def stringToBase64 (s : String) : String :=
  bufferToBase64 (s.toUTF8.toList.map (fun b => b.toNat))

/-- The argument record of `repos.createOrUpdateFileContents`. -/
structure CommitRequest where
  owner : String
  repo : String
  path : String
  message : String
  content : String
  branch : String
  sha : Option String
  deriving DecidableEq

/-- `GHSBinderDeployer.safeUploadBinary`: probe for the existing file's sha;
rethrow any probe failure whose status is not 404; commit the base64-encoded
buffer with the sha when the probe found one. -/
def safeUploadBinary (probe : Except Nat String) (owner repo branch : String)
    (filePath : String) (fileBuffer : List Nat) (commitMessage : String) :
    Except Nat CommitRequest :=
  let content := bufferToBase64 fileBuffer
  match probe with
  | .ok fileSha =>
    .ok { owner := owner, repo := repo, path := filePath, message := commitMessage,
          content := content, branch := branch, sha := some fileSha }
  | .error status =>
    if status ≠ 404 then .error status
    else
      .ok { owner := owner, repo := repo, path := filePath, message := commitMessage,
            content := content, branch := branch, sha := none }

/-- `GHSBinderDeployer.uploadFile` (text path): identical probe handling, with
the content UTF-8 + base64 encoded; the outer catch logs and rethrows, so
failure propagation is unchanged. -/
def uploadFile (probe : Except Nat String) (owner repoName : String)
    (filePath content commitMessage branch : String) : Except Nat CommitRequest :=
  let contentEncoded := stringToBase64 content
  match probe with
  | .ok fileSha =>
    .ok { owner := owner, repo := repoName, path := filePath, message := commitMessage,
          content := contentEncoded, branch := branch, sha := some fileSha }
  | .error status =>
    if status ≠ 404 then .error status
    else
      .ok { owner := owner, repo := repoName, path := filePath,
            message := commitMessage, content := contentEncoded, branch := branch,
            sha := none }

/-- C3: both upload helpers treat a 404 probe as "file absent" and commit
without a revision marker, propagate any other probe failure status (e.g.
500) as fatal, and commit with the found sha when the probe succeeds. -/
theorem upload_probe_404_absent_other_fatal (probe : Except Nat String)
    (owner repo branch filePath : String) (fileBuffer : List Nat)
    (textContent commitMessage : String) :
    (probe = .error 404 →
      safeUploadBinary probe owner repo branch filePath fileBuffer commitMessage =
        .ok { owner := owner, repo := repo, path := filePath,
              message := commitMessage, content := bufferToBase64 fileBuffer,
              branch := branch, sha := none } ∧
      uploadFile probe owner repo filePath textContent commitMessage branch =
        .ok { owner := owner, repo := repo, path := filePath,
              message := commitMessage, content := stringToBase64 textContent,
              branch := branch, sha := none }) ∧
    (∀ status, status ≠ 404 → probe = .error status →
      safeUploadBinary probe owner repo branch filePath fileBuffer commitMessage =
        .error status ∧
      uploadFile probe owner repo filePath textContent commitMessage branch =
        .error status) ∧
    (∀ fileSha, probe = .ok fileSha →
      safeUploadBinary probe owner repo branch filePath fileBuffer commitMessage =
        .ok { owner := owner, repo := repo, path := filePath,
              message := commitMessage, content := bufferToBase64 fileBuffer,
              branch := branch, sha := some fileSha } ∧
      uploadFile probe owner repo filePath textContent commitMessage branch =
        .ok { owner := owner, repo := repo, path := filePath,
              message := commitMessage, content := stringToBase64 textContent,
              branch := branch, sha := some fileSha }) := by
  refine ⟨?_, ?_, ?_⟩
  · rintro rfl
    exact ⟨by simp [safeUploadBinary], by simp [uploadFile]⟩
  · rintro status hne rfl
    exact ⟨by simp [safeUploadBinary, hne], by simp [uploadFile, hne]⟩
  · rintro fileSha rfl
    exact ⟨by simp [safeUploadBinary], by simp [uploadFile]⟩

/-- Witness for C3: a 404 probe commits without a sha; a 500 probe aborts. -/
theorem upload_probe_404_absent_other_fatal_witness :
    safeUploadBinary (.error 404) "rascoused" "sqzr-ghs-binder" "main"
        "pdfs/x.pdf" [37, 80] "Upload" =
      .ok { owner := "rascoused", repo := "sqzr-ghs-binder", path := "pdfs/x.pdf",
            message := "Upload", content := bufferToBase64 [37, 80],
            branch := "main", sha := none } ∧
    safeUploadBinary (.error 500) "rascoused" "sqzr-ghs-binder" "main"
        "pdfs/x.pdf" [37, 80] "Upload" = .error 500 :=
  ⟨((upload_probe_404_absent_other_fatal (.error 404) "rascoused" "sqzr-ghs-binder"
      "main" "pdfs/x.pdf" [37, 80] "" "Upload").1 rfl).1,
   ((upload_probe_404_absent_other_fatal (.error 500) "rascoused" "sqzr-ghs-binder"
      "main" "pdfs/x.pdf" [37, 80] "" "Upload").2.1 500 (by decide) rfl).1⟩

/-! ## `createRepository` and the deployment branch -/

/-- A repository descriptor as returned by the hosting API.  `default_branch`
is `Option` (plus JS truthiness through `jsOr`) because the pipeline guards it
with `repo.default_branch || 'main'`. -/
structure Repo where
  name : String
  default_branch : Option String
  html_url : String
  deriving DecidableEq

/-- The argument record of `repos.createForAuthenticatedUser`. -/
structure RepoCreateParams where
  name : String
  description : String
  isPrivate : Bool
  homepage : String
  auto_init : Bool
  license_template : String
  deriving DecidableEq

/-- The creation request `createRepository` issues (`private: false` — public
for GitHub Pages; `isPrivate` renders the JS key `private`, a Lean keyword). -/
def createRepoRequest (cfg : CustomerConfig) : RepoCreateParams :=
  { name := cfg.customer_info.repoName
    description := "GHS Safety Binder for " ++ cfg.customer_info.name ++
      " - Professional chemical safety documentation portal"
    isPrivate := false
    homepage := cfg.customer_info.repoUrl
    auto_init := true
    license_template := "mit" }

/-- `GHSBinderDeployer.createRepository`: return the created repository; on a
422 (name already exists) fetch and return the existing repository — any
failure of that fetch propagates uncaught; any other creation status is
rethrown.  `createResult`/`getResult` are the outcomes of the two API calls,
keyed by HTTP status on failure. -/
def createRepository (createResult : Except Nat Repo) (getResult : Except Nat Repo) :
    Except Nat Repo :=
  match createResult with
  | .ok repo => .ok repo
  | .error status => if status = 422 then getResult else .error status

/-- Step 2 of `deployCustomerSite`: `repo.default_branch || 'main'`. -/
def deployBranch (repo : Repo) : String := jsOr repo.default_branch "main"

/-- C4: the creation request is public (`private: false`); a successful create
is returned as-is; a 422 conflict falls back to the fetched existing
repository, so deployment completes with the existing repository and its
actual default branch; any other creation status propagates as fatal. -/
theorem createRepository_conflict_reuses_existing (createResult getResult :
    Except Nat Repo) (cfg : CustomerConfig) :
    (createRepoRequest cfg).isPrivate = false ∧
    (∀ r, createResult = .ok r →
      createRepository createResult getResult = .ok r) ∧
    (createResult = .error 422 →
      createRepository createResult getResult = getResult) ∧
    (∀ status, status ≠ 422 → createResult = .error status →
      createRepository createResult getResult = .error status) ∧
    (∀ r, createResult = .error 422 → getResult = .ok r →
      createRepository createResult getResult = .ok r ∧
      (∀ b, r.default_branch = some b → b ≠ "" → deployBranch r = b)) := by
  refine ⟨rfl, ?_, ?_, ?_, ?_⟩
  · rintro r rfl
    rfl
  · rintro rfl
    simp [createRepository]
  · rintro status hne rfl
    simp [createRepository, hne]
  · rintro r rfl rfl
    refine ⟨by simp [createRepository], ?_⟩
    intro b hb hbne
    simp [deployBranch, jsOr, hb, hbne]

/-- Witness for C4: a simulated 422 on create with an existing repository
whose default branch is `master`: deployment reuses it and operates on
`master`. -/
theorem createRepository_conflict_reuses_existing_witness :
    createRepository (.error 422)
        (.ok { name := "sqzr-ghs-binder", default_branch := some "master",
               html_url := "https://github.com/rascoused/sqzr-ghs-binder" }) =
      .ok { name := "sqzr-ghs-binder", default_branch := some "master",
            html_url := "https://github.com/rascoused/sqzr-ghs-binder" } ∧
    deployBranch { name := "sqzr-ghs-binder", default_branch := some "master",
                   html_url := "https://github.com/rascoused/sqzr-ghs-binder" } =
      "master" :=
  ⟨((createRepository_conflict_reuses_existing (.error 422)
      (.ok { name := "sqzr-ghs-binder", default_branch := some "master",
             html_url := "https://github.com/rascoused/sqzr-ghs-binder" })
      sampleConfig).2.2.2.2
      { name := "sqzr-ghs-binder", default_branch := some "master",
        html_url := "https://github.com/rascoused/sqzr-ghs-binder" } rfl rfl).1,
   ((createRepository_conflict_reuses_existing (.error 422)
      (.ok { name := "sqzr-ghs-binder", default_branch := some "master",
             html_url := "https://github.com/rascoused/sqzr-ghs-binder" })
      sampleConfig).2.2.2.2
      { name := "sqzr-ghs-binder", default_branch := some "master",
        html_url := "https://github.com/rascoused/sqzr-ghs-binder" } rfl rfl).2
      "master" rfl (by decide)⟩

/-! ## `verifyPDFsOnPages`

```js
for (const chemical of chemicals) {
    const pdfs = [chemical.literature?.filename, chemical.sds?.filename].filter(Boolean);
    for (const filename of pdfs) {
        const url = `.../pdfs/` + filename;
        const res = await fetch(url, { method: 'HEAD' });
        if (!res.ok) throw new Error(`HTTP ` + res.status);
        const contentType = res.headers.get('content-type') || '';
        const contentLength = parseInt(res.headers.get('content-length') || '0', 10);
        if (!contentType.includes('pdf') || contentLength < 1024) throw ...;
    }    // any throw is wrapped: `Verification failed for ` + url + `: ` + msg
}
```

HEAD responses are an oracle `String → HeadResponse`; the `content-length`
header is modelled as the numeral it carries (`none` = header absent, parsed
as `'0'`). -/

/-- A HEAD response: `ok`/`status` from fetch, plus the two headers read. -/
structure HeadResponse where
  ok : Bool
  status : Nat
  contentType : Option String
  contentLength : Option Nat
  deriving DecidableEq

/-- `needle` occurs at the head of `hay`. -/
def seqStartsWith : List Char → List Char → Bool
  | [], _ => true
  | _ :: _, [] => false
  | n :: ns, h :: hs => n == h && seqStartsWith ns hs

/-- `needle` occurs somewhere in `hay`. -/
def seqContains (needle : List Char) : List Char → Bool
  | [] => seqStartsWith needle []
  | h :: hs => seqStartsWith needle (h :: hs) || seqContains needle hs

/-- JavaScript `hay.includes(needle)`. -/
def strIncludes (hay needle : String) : Bool := seqContains needle.toList hay.toList

/-- The check applied to one HEAD response: `none` when it passes, `some msg`
with the thrown message otherwise (success status; content-type containing
`pdf`; content length at least 1024 bytes). -/
def verifyReason (r : HeadResponse) : Option String :=
  if !r.ok then some ("HTTP " ++ toString r.status)
  else
    let contentType := match r.contentType with | none => "" | some s => s
    let contentLength := match r.contentLength with | none => 0 | some n => n
    if !(strIncludes contentType "pdf") || contentLength < 1024 then
      some ("Unexpected type/size: " ++ contentType ++ ", " ++
        toString contentLength ++ " bytes")
    else none

/-- One URL check, with the failure wrapped into the descriptive error that
names the URL. -/
def verifyOne (url : String) (r : HeadResponse) : Except String Unit :=
  match verifyReason r with
  | some msg => .error ("Verification failed for " ++ url ++ ": " ++ msg)
  | none => .ok ()

/-- The document URL checked for a filename. -/
def pdfUrl (baseUrl filename : String) : String := baseUrl ++ "/pdfs/" ++ filename

/-- `[chemical.literature?.filename, chemical.sds?.filename].filter(Boolean)`. -/
def chemicalPdfFilenames (c : Chemical) : List String :=
  (match docFilename c.literature with | none => [] | some f => [f]) ++
  (match docFilename c.sds with | none => [] | some f => [f])

/-- All filenames the verification pass checks, in loop order. -/
def referencedFilenames : List Chemical → List String
  | [] => []
  | c :: cs => chemicalPdfFilenames c ++ referencedFilenames cs

/-- The inner `for (const filename of pdfs)` loop: abort on the first failing
URL. -/
def verifyFiles (net : String → HeadResponse) (baseUrl : String) :
    List String → Except String Unit
  | [] => .ok ()
  | f :: fs =>
    match verifyOne (pdfUrl baseUrl f) (net (pdfUrl baseUrl f)) with
    | .error e => .error e
    | .ok _ => verifyFiles net baseUrl fs

/-- The outer `for (const chemical of chemicals)` loop. -/
def verifyChemLoop (net : String → HeadResponse) (baseUrl : String) :
    List Chemical → Except String Unit
  | [] => .ok ()
  | c :: cs =>
    match verifyFiles net baseUrl (chemicalPdfFilenames c) with
    | .error e => .error e
    | .ok _ => verifyChemLoop net baseUrl cs

/-- `GHSBinderDeployer.verifyPDFsOnPages`. -/
def verifyPDFsOnPages (net : String → HeadResponse) (owner repoName : String)
    (chemicals : List Chemical) : Except String Unit :=
  verifyChemLoop net ("https://" ++ owner ++ ".github.io/" ++ repoName) chemicals

/-- Whether one response passes all checks. -/
def passesVerification (r : HeadResponse) : Bool := (verifyReason r).isNone

/-- Sequencing lemma: checking a concatenation of filename lists is checking
the first list, then on success the second. -/
theorem verifyFiles_append (net : String → HeadResponse) (baseUrl : String)
    (fs1 fs2 : List String) :
    verifyFiles net baseUrl (fs1 ++ fs2) =
      match verifyFiles net baseUrl fs1 with
      | .error e => .error e
      | .ok _ => verifyFiles net baseUrl fs2 := by
  induction fs1 with
  | nil => rfl
  | cons f fs ih =>
    show verifyFiles net baseUrl (f :: (fs ++ fs2)) = _
    rw [verifyFiles]
    conv_rhs => rw [verifyFiles]
    cases verifyOne (pdfUrl baseUrl f) (net (pdfUrl baseUrl f)) with
    | error e => rfl
    | ok u => rw [ih]

/-- The nested chemical/file loops flatten to one pass over all referenced
filenames. -/
theorem verifyChemLoop_flatten (net : String → HeadResponse) (baseUrl : String)
    (chems : List Chemical) :
    verifyChemLoop net baseUrl chems =
      verifyFiles net baseUrl (referencedFilenames chems) := by
  induction chems with
  | nil => rfl
  | cons c cs ih =>
    rw [verifyChemLoop, referencedFilenames, verifyFiles_append]
    cases verifyFiles net baseUrl (chemicalPdfFilenames c) with
    | error e => rfl
    | ok u => rw [ih]

/-- `verifyFiles` succeeds iff every checked URL passes. -/
theorem verifyFiles_ok_iff (net : String → HeadResponse) (baseUrl : String)
    (fs : List String) :
    verifyFiles net baseUrl fs = .ok () ↔
      ∀ f ∈ fs, passesVerification (net (pdfUrl baseUrl f)) = true := by
  induction fs with
  | nil => simp [verifyFiles]
  | cons f fs ih =>
    rw [verifyFiles]
    cases hr : verifyReason (net (pdfUrl baseUrl f)) with
    | some msg =>
      have : verifyOne (pdfUrl baseUrl f) (net (pdfUrl baseUrl f)) =
          .error ("Verification failed for " ++ pdfUrl baseUrl f ++ ": " ++ msg) := by
        rw [verifyOne, hr]
      rw [this]
      constructor
      · intro habs
        exact absurd habs (by simp)
      · intro hall
        have := hall f (List.mem_cons_self _ _)
        rw [passesVerification, hr] at this
        simp at this
    | none =>
      have hok1 : verifyOne (pdfUrl baseUrl f) (net (pdfUrl baseUrl f)) = .ok () := by
        rw [verifyOne, hr]
      rw [hok1]
      constructor
      · intro hrest g hg
        rcases List.mem_cons.mp hg with rfl | hg'
        · rw [passesVerification, hr]; rfl
        · exact (ih.mp hrest) g hg'
      · intro hall
        exact ih.mpr (fun g hg => hall g (List.mem_cons_of_mem _ hg))

/-- A failing `verifyFiles` run aborts with an error naming a checked URL
that fails the response checks. -/
theorem verifyFiles_error (net : String → HeadResponse) (baseUrl : String)
    (fs : List String) (e : String)
    (h : verifyFiles net baseUrl fs = .error e) :
    ∃ f ∈ fs, passesVerification (net (pdfUrl baseUrl f)) = false ∧
      ∃ msg, e = "Verification failed for " ++ pdfUrl baseUrl f ++ ": " ++ msg := by
  induction fs with
  | nil => simp [verifyFiles] at h
  | cons f fs ih =>
    rw [verifyFiles] at h
    cases hr : verifyReason (net (pdfUrl baseUrl f)) with
    | some msg =>
      have hone : verifyOne (pdfUrl baseUrl f) (net (pdfUrl baseUrl f)) =
          .error ("Verification failed for " ++ pdfUrl baseUrl f ++ ": " ++ msg) := by
        rw [verifyOne, hr]
      rw [hone] at h
      refine ⟨f, List.mem_cons_self _ _, ?_, msg, ?_⟩
      · rw [passesVerification, hr]; rfl
      · exact (Except.error.inj h).symm
    | none =>
      have hone : verifyOne (pdfUrl baseUrl f) (net (pdfUrl baseUrl f)) = .ok () := by
        rw [verifyOne, hr]
      rw [hone] at h
      rcases ih h with ⟨g, hg, hgf, msg, hmsg⟩
      exact ⟨g, List.mem_cons_of_mem _ hg, hgf, msg, hmsg⟩

/-- C2: verification HEAD-checks every referenced document URL and succeeds
iff each response has a success status, a content-type containing `pdf`, and
at least the 1024-byte sanity size; a `text/html` response is rejected even
with status 200; and any single failure aborts the pass with an error naming
the failing URL. -/
theorem verifyPDFsOnPages_spec (net : String → HeadResponse)
    (owner repoName : String) (chemicals : List Chemical) :
    (verifyPDFsOnPages net owner repoName chemicals = .ok () ↔
      ∀ f ∈ referencedFilenames chemicals,
        passesVerification
          (net (pdfUrl ("https://" ++ owner ++ ".github.io/" ++ repoName) f)) = true) ∧
    (∀ r, r.ok = true → r.status = 200 → r.contentType = some "text/html" →
      passesVerification r = false) ∧
    (∀ e, verifyPDFsOnPages net owner repoName chemicals = .error e →
      ∃ f ∈ referencedFilenames chemicals,
        passesVerification
          (net (pdfUrl ("https://" ++ owner ++ ".github.io/" ++ repoName) f)) = false ∧
        ∃ msg, e = "Verification failed for " ++
          pdfUrl ("https://" ++ owner ++ ".github.io/" ++ repoName) f ++ ": " ++ msg) := by
  refine ⟨?_, ?_, ?_⟩
  · rw [verifyPDFsOnPages, verifyChemLoop_flatten]
    exact verifyFiles_ok_iff net _ (referencedFilenames chemicals)
  · intro r hok _ hct
    rw [passesVerification, verifyReason, hok, hct]
    simp only [Bool.not_true, Bool.false_eq_true, if_false]
    have : strIncludes "text/html" "pdf" = false := by decide
    rw [this]
    simp
  · intro e he
    rw [verifyPDFsOnPages, verifyChemLoop_flatten] at he
    exact verifyFiles_error net _ (referencedFilenames chemicals) e he

/-- Witness for C2: a 200 `text/html` response of generous size still fails
the checks. -/
theorem verifyPDFsOnPages_spec_witness :
    passesVerification
      { ok := true, status := 200, contentType := some "text/html",
        contentLength := some 1000000 } = false :=
  (verifyPDFsOnPages_spec
    (fun _ => { ok := true, status := 200, contentType := some "text/html",
                contentLength := some 1000000 })
    "rascoused" "sqzr-ghs-binder" sampleConfig.chemicals).2.1
    { ok := true, status := 200, contentType := some "text/html",
      contentLength := some 1000000 } rfl rfl rfl

/-! ## `GHSManagementDashboard.handleFileStatus` (per-customer reconciliation)

```js
let files = [];
try { files = await fs.readdir(filesDir); } catch (dirError) { files = []; }
const chemicals = customerConfig.chemicals || [];
const missingFiles = [];
const orphanedFiles = [...files];
chemicals.forEach(chemical => {
    if (chemical.literature && chemical.literature.filename) {
        if (!files.includes(...)) missingFiles.push({type:'literature',...});
        else { const index = orphanedFiles.indexOf(...); if (index > -1) orphanedFiles.splice(index, 1); }
    }
    ...same for sds...
});
status: missingFiles.length === 0 ? 'complete' : 'incomplete'
```

The staging directory listing is `Option (List String)`: `none` when `readdir`
threw (directory missing). -/

/-- One entry of `missingFiles`. -/
structure MissingEntry where
  ty : String
  chemical : String
  filename : String
  deriving DecidableEq

/-- `readdir` result with the catch: a missing directory lists as `[]`. -/
def filesOf : Option (List String) → List String
  | none => []
  | some fs => fs

/-- One slot of the `forEach` body: skip unless the slot has a truthy
filename; push a missing entry when the staging directory lacks it; otherwise
remove its first occurrence from the orphaned list (`indexOf`/`splice`, a
no-op at index -1, is `List.erase`). -/
def fileStatusSlot (files : List String) (acc : List MissingEntry × List String)
    (ty chemName : String) (doc : Option DocRef) :
    List MissingEntry × List String :=
  match docFilename doc with
  | none => acc
  | some f =>
    if !(files.contains f) then
      (acc.1 ++ [{ ty := ty, chemical := chemName, filename := f }], acc.2)
    else (acc.1, acc.2.erase f)

/-- The `forEach` body for one chemical: literature slot, then sds slot. -/
def fileStatusChem (files : List String) (acc : List MissingEntry × List String)
    (c : Chemical) : List MissingEntry × List String :=
  fileStatusSlot files (fileStatusSlot files acc "literature" c.name c.literature)
    "sds" c.name c.sds

/-- The per-customer object `handleFileStatus` pushes. -/
structure FileStatusEntry where
  totalFiles : Nat
  totalChemicals : Nat
  missingCount : Nat
  orphanedCount : Nat
  missingFilesList : List MissingEntry
  orphanedFilesList : List String
  status : String
  deriving DecidableEq

/-- The reconciliation for one customer: fold the `forEach` over the full
chemicals list, starting from no missing entries and all staged files
orphaned. -/
def handleFileStatusEntry (chems : List Chemical) (dirFiles : Option (List String)) :
    FileStatusEntry :=
  let files := filesOf dirFiles
  let res := chems.foldl (fileStatusChem files) ([], files)
  { totalFiles := files.length
    totalChemicals := chems.length
    missingCount := res.1.length
    orphanedCount := res.2.length
    missingFilesList := res.1
    orphanedFilesList := res.2
    status := if res.1.length = 0 then "complete" else "incomplete" }

/-- The slot references the reconciliation traverses, in `forEach` order
(slot-type tags as the dashboard writes them). -/
def statusSlotRefs : List Chemical → List SlotRef
  | [] => []
  | c :: cs => docSlotRefs "literature" c.name c.literature ++
      docSlotRefs "sds" c.name c.sds ++ statusSlotRefs cs

/-- One slot's state update, expressed over a `SlotRef`. -/
def slotStep (files : List String) (acc : List MissingEntry × List String)
    (s : SlotRef) : List MissingEntry × List String :=
  if !(files.contains s.filename) then
    (acc.1 ++ [{ ty := s.ty, chemical := s.chemName, filename := s.filename }], acc.2)
  else (acc.1, acc.2.erase s.filename)

/-- One document slot folds as its slot references do. -/
theorem fileStatusSlot_eq_foldl (files : List String)
    (acc : List MissingEntry × List String) (ty chemName : String)
    (doc : Option DocRef) :
    fileStatusSlot files acc ty chemName doc =
      (docSlotRefs ty chemName doc).foldl (slotStep files) acc := by
  cases hdoc : docFilename doc with
  | none => simp [fileStatusSlot, docSlotRefs, hdoc]
  | some f => simp [fileStatusSlot, docSlotRefs, hdoc, slotStep]

/-- The chemical fold flattens to a fold over all slot references. -/
theorem fileStatus_fold_eq (files : List String) (chems : List Chemical)
    (acc : List MissingEntry × List String) :
    chems.foldl (fileStatusChem files) acc =
      (statusSlotRefs chems).foldl (slotStep files) acc := by
  induction chems generalizing acc with
  | nil => rfl
  | cons c cs ih =>
    show cs.foldl (fileStatusChem files) (fileStatusChem files acc c) = _
    rw [statusSlotRefs, List.foldl_append, List.foldl_append, ih]
    rw [fileStatusChem, fileStatusSlot_eq_foldl, fileStatusSlot_eq_foldl]

/-- The missing component of the slot fold: the traversed slots absent from
the staging directory, appended in order (independent of the orphan state). -/
theorem foldl_slotStep_fst (files : List String) (ss : List SlotRef)
    (m0 : List MissingEntry) (o0 : List String) :
    (ss.foldl (slotStep files) (m0, o0)).1 =
      m0 ++ ss.filterMap (fun s =>
        if files.contains s.filename then none
        else some { ty := s.ty, chemical := s.chemName, filename := s.filename }) := by
  induction ss generalizing m0 o0 with
  | nil => simp
  | cons s ss ih =>
    by_cases hc : files.contains s.filename = true
    · show (ss.foldl (slotStep files) (slotStep files (m0, o0) s)).1 = _
      rw [slotStep]
      rw [hc]
      simp only [Bool.not_true, Bool.false_eq_true, if_false, List.filterMap_cons, hc,
        if_true]
      exact ih m0 (o0.erase s.filename)
    · rw [Bool.not_eq_true] at hc
      show (ss.foldl (slotStep files) (slotStep files (m0, o0) s)).1 = _
      rw [slotStep]
      rw [hc]
      simp only [Bool.not_false, if_true, List.filterMap_cons, hc, Bool.false_eq_true,
        if_false]
      rw [ih]
      simp

/-- The orphaned component of the slot fold: the chain of erasures of the
staged slots, independent of the missing state. -/
theorem foldl_slotStep_snd (files : List String) (ss : List SlotRef)
    (m0 : List MissingEntry) (o0 : List String) :
    (ss.foldl (slotStep files) (m0, o0)).2 =
      ss.foldl (fun o s =>
        if files.contains s.filename then o.erase s.filename else o) o0 := by
  induction ss generalizing m0 o0 with
  | nil => rfl
  | cons s ss ih =>
    by_cases hc : files.contains s.filename = true
    · show (ss.foldl (slotStep files) (slotStep files (m0, o0) s)).2 = _
      rw [List.foldl_cons, if_pos hc]
      have hstep : slotStep files (m0, o0) s = (m0, o0.erase s.filename) := by
        simp only [slotStep, hc, Bool.not_true, Bool.false_eq_true, if_false]
      rw [hstep]
      exact ih m0 (o0.erase s.filename)
    · rw [Bool.not_eq_true] at hc
      show (ss.foldl (slotStep files) (slotStep files (m0, o0) s)).2 = _
      rw [List.foldl_cons,
        if_neg (fun habs => by rw [hc] at habs; exact Bool.noConfusion habs)]
      have hstep : slotStep files (m0, o0) s =
          (m0 ++ [{ ty := s.ty, chemical := s.chemName, filename := s.filename }],
            o0) := by
        simp only [slotStep, hc, Bool.not_false, if_true]
      rw [hstep]
      exact ih _ o0

/-- Membership after the erase chain over a duplicate-free list: a file
survives iff it started there and no staged traversed slot references it. -/
theorem foldl_erase_mem (files : List String) (ss : List SlotRef)
    (o : List String) (ho : o.Nodup) (f : String) :
    (f ∈ ss.foldl (fun o s =>
        if files.contains s.filename then o.erase s.filename else o) o) ↔
      (f ∈ o ∧ ∀ s ∈ ss, files.contains s.filename = true → s.filename ≠ f) := by
  induction ss generalizing o with
  | nil => simp
  | cons s ss ih =>
    by_cases hc : files.contains s.filename = true
    · show f ∈ ss.foldl _ (if files.contains s.filename then o.erase s.filename else o)
        ↔ _
      rw [hc]
      simp only [if_true]
      rw [ih (o.erase s.filename) (ho.erase _)]
      rw [List.Nodup.mem_erase_iff ho]
      constructor
      · rintro ⟨⟨hne, hfo⟩, hrest⟩
        refine ⟨hfo, ?_⟩
        intro x hx hcx
        rcases List.mem_cons.mp hx with rfl | hx'
        · exact fun habs => hne (habs.symm)
        · exact hrest x hx' hcx
      · rintro ⟨hfo, hall⟩
        refine ⟨⟨?_, hfo⟩, ?_⟩
        · intro habs
          exact hall s (List.mem_cons_self _ _) hc habs.symm
        · intro x hx hcx
          exact hall x (List.mem_cons_of_mem _ hx) hcx
    · show f ∈ ss.foldl _ (if files.contains s.filename then o.erase s.filename else o)
        ↔ _
      rw [Bool.not_eq_true] at hc
      rw [hc]
      simp only [Bool.false_eq_true, if_false]
      rw [ih o ho]
      constructor
      · rintro ⟨hfo, hrest⟩
        refine ⟨hfo, ?_⟩
        intro x hx hcx
        rcases List.mem_cons.mp hx with rfl | hx'
        · rw [hcx] at hc
          exact Bool.noConfusion hc
        · exact hrest x hx' hcx
      · rintro ⟨hfo, hall⟩
        exact ⟨hfo, fun x hx hcx => hall x (List.mem_cons_of_mem _ hx) hcx⟩

/-- C9 (amended): reconciliation is computed over every chemical of the list
(active and inactive alike): the missing entries are exactly the slot
references — of any chemical — absent from the staging directory; the
orphaned files are exactly the staged files referenced by no chemical; the
status is `complete` iff nothing is missing; and a missing staging directory
lists as zero files rather than an error. -/
theorem handleFileStatus_characterisation (chems : List Chemical)
    (dirFiles : Option (List String)) (hnd : (filesOf dirFiles).Nodup) :
    handleFileStatusEntry chems none = handleFileStatusEntry chems (some []) ∧
    (handleFileStatusEntry chems dirFiles).missingFilesList =
      (statusSlotRefs chems).filterMap (fun s =>
        if (filesOf dirFiles).contains s.filename then none
        else some { ty := s.ty, chemical := s.chemName, filename := s.filename }) ∧
    (∀ f, f ∈ (handleFileStatusEntry chems dirFiles).orphanedFilesList ↔
      (f ∈ filesOf dirFiles ∧
        f ∉ (statusSlotRefs chems).map SlotRef.filename)) ∧
    ((handleFileStatusEntry chems dirFiles).status = "complete" ↔
      (handleFileStatusEntry chems dirFiles).missingFilesList = []) := by
  refine ⟨rfl, ?_, ?_, ?_⟩
  · show (chems.foldl (fileStatusChem (filesOf dirFiles)) ([], filesOf dirFiles)).1 = _
    rw [fileStatus_fold_eq, foldl_slotStep_fst]
    simp
  · intro f
    show f ∈ (chems.foldl (fileStatusChem (filesOf dirFiles))
        ([], filesOf dirFiles)).2 ↔ _
    rw [fileStatus_fold_eq, foldl_slotStep_snd,
      foldl_erase_mem (filesOf dirFiles) (statusSlotRefs chems) (filesOf dirFiles) hnd f]
    constructor
    · rintro ⟨hfo, hall⟩
      refine ⟨hfo, ?_⟩
      intro habs
      rcases List.mem_map.mp habs with ⟨s, hs, hsf⟩
      have hcontains : (filesOf dirFiles).contains f = true := by
        have : f ∈ filesOf dirFiles := hfo
        exact List.elem_iff.mpr this
      apply hall s hs
      · rw [hsf]
        exact hcontains
      · exact hsf
    · rintro ⟨hfo, hnotref⟩
      refine ⟨hfo, ?_⟩
      intro s hs _ hsf
      exact hnotref (List.mem_map.mpr ⟨s, hs, hsf⟩)
  · have hm : (handleFileStatusEntry chems dirFiles).missingFilesList =
        (chems.foldl (fileStatusChem (filesOf dirFiles)) ([], filesOf dirFiles)).1 :=
      rfl
    have hs : (handleFileStatusEntry chems dirFiles).status =
        (if (chems.foldl (fileStatusChem (filesOf dirFiles))
            ([], filesOf dirFiles)).1.length = 0
         then "complete" else "incomplete") := rfl
    rw [hm, hs]
    by_cases hlen : (chems.foldl (fileStatusChem (filesOf dirFiles))
        ([], filesOf dirFiles)).1.length = 0
    · rw [if_pos hlen]
      simp [List.length_eq_zero.mp hlen]
    · rw [if_neg hlen]
      constructor
      · intro habs
        exact absurd habs (by decide)
      · intro habs
        rw [habs] at hlen
        exact absurd rfl hlen

/-- Counterexample to C9 as stated: with a single inactive chemical whose
literature PDF is staged, there is no active chemical at all — so the claim
predicts the staged file is orphaned and the missing set empty (status
`complete`) — yet the code consumes the staged file (no orphans) and reports
the inactive chemical's SDS as missing (status `incomplete`). -/
theorem handleFileStatus_ignores_active_flag :
    inactiveOnlyConfig.chemicals.filter (fun c => c.active) = [] ∧
    (handleFileStatusEntry inactiveOnlyConfig.chemicals
      (some ["acetone_lit.pdf"])).orphanedFilesList = [] ∧
    (handleFileStatusEntry inactiveOnlyConfig.chemicals
      (some ["acetone_lit.pdf"])).status = "incomplete" := by
  refine ⟨by decide, by decide, by decide⟩

/-- A customer list with one chemical referencing `a.pdf` and `b.pdf`. -/
def exampleChems : List Chemical :=
  [{ sampleChemical with
      literature := some { filename := "a.pdf", url := none, title := none }
      sds := some { filename := "b.pdf", url := none, title := none } }]

/-- Witness for C9 at the spec's worked example: referenced `a.pdf`/`b.pdf`
against staged `b.pdf`/`c.pdf` give missing `a.pdf` and orphaned `c.pdf`, and
the general orphan clause instantiated at `c.pdf`. -/
theorem handleFileStatus_characterisation_witness :
    (filesOf (some ["b.pdf", "c.pdf"])).Nodup ∧
    (handleFileStatusEntry exampleChems
        (some ["b.pdf", "c.pdf"])).missingFilesList.map
      (fun e => e.filename) = ["a.pdf"] ∧
    (handleFileStatusEntry exampleChems
      (some ["b.pdf", "c.pdf"])).orphanedFilesList = ["c.pdf"] ∧
    ("c.pdf" ∈ (handleFileStatusEntry exampleChems
        (some ["b.pdf", "c.pdf"])).orphanedFilesList ↔
      ("c.pdf" ∈ filesOf (some ["b.pdf", "c.pdf"]) ∧
        "c.pdf" ∉ (statusSlotRefs exampleChems).map SlotRef.filename)) :=
  ⟨by decide, by decide, by decide,
    (handleFileStatus_characterisation exampleChems (some ["b.pdf", "c.pdf"])
      (by decide)).2.2.1 "c.pdf"⟩

end GHS
